import Mathlib

/-!
Shallow embedding of the `hissedari` on-chain programs
(`programs/crowdfunding/src/lib.rs` and `programs/property_dividends/src/lib.rs`).

Machine integers are modelled as `Nat` with explicit `2 ^ 64` (`2 ^ 32`,
`2 ^ 128`) bounds where the source uses `checked_add` / `checked_sub` /
`checked_div` / `checked_mul` on `u64` / `u32` / `u128`; the `as u64` cast is
an explicit `% 2 ^ 64`.  `i64` timestamps are `Int`.  Pubkeys are `Nat`
identifiers.  Fallible instructions return `Except`; an error models a failed
transaction, which on Solana commits no state change at all, so an erroring
operation simply does not produce a successor state.  Anchor account
constraints (signer/authority checks, PDA `init` collisions, missing
accounts) are modelled as explicit checks at the head of each operation; the
runtime-level failures they produce are the `AccountAlreadyInitialized` /
`AccountNotInitialized` / `InsufficientFunds` error values below.
-/

def U32 : Nat := 2 ^ 32

def U64 : Nat := 2 ^ 64

def U128 : Nat := 2 ^ 128

/-- The `as u64` truncating cast. -/
def u64Cast (a : Nat) : Nat := a % U64

/-- `u64::checked_add`. -/
def checkedAdd64 (a b : Nat) : Option Nat :=
  if a + b < U64 then some (a + b) else none

/-- `u32::checked_add`. -/
def checkedAdd32 (a b : Nat) : Option Nat :=
  if a + b < U32 then some (a + b) else none

/-- `u64::checked_sub`. -/
def checkedSub (a b : Nat) : Option Nat :=
  if b ≤ a then some (a - b) else none

/-- `u64::checked_div` (and `u128::checked_div`): fails only on a zero divisor. -/
def checkedDiv (a b : Nat) : Option Nat :=
  if b = 0 then none else some (a / b)

/-- `u64::checked_mul`. -/
def checkedMul64 (a b : Nat) : Option Nat :=
  if a * b < U64 then some (a * b) else none

/-- `u128::checked_mul`. -/
def checkedMul128 (a b : Nat) : Option Nat :=
  if a * b < U128 then some (a * b) else none

/-- Association-list lookup keyed by decidable equality (first match). -/
def alookup {κ α : Type} [DecidableEq κ] : List (κ × α) → κ → Option α
  | [], _ => none
  | (j, v) :: rest, k => if j = k then some v else alookup rest k

/-- Association-list insert-or-replace (replaces the first match). -/
def upsert {κ α : Type} [DecidableEq κ] : List (κ × α) → κ → α → List (κ × α)
  | [], k, v => [(k, v)]
  | (j, w) :: rest, k, v =>
      if j = k then (k, v) :: rest else (j, w) :: upsert rest k v

/-- Unwrap an `Except` with a fallback, for naming concrete trace states. -/
def okOr {ε α : Type} (x : Except ε α) (d : α) : α :=
  match x with
  | .ok v => v
  | .error _ => d

instance {ε α : Type} [DecidableEq ε] [DecidableEq α] : DecidableEq (Except ε α) := fun a b =>
  match a, b with
  | .ok x, .ok y =>
      if h : x = y then .isTrue (by rw [h]) else .isFalse (fun c => by cases c; exact h rfl)
  | .error x, .error y =>
      if h : x = y then .isTrue (by rw [h]) else .isFalse (fun c => by cases c; exact h rfl)
  | .ok _, .error _ => .isFalse (fun c => by cases c)
  | .error _, .ok _ => .isFalse (fun c => by cases c)

namespace Crowdfunding

/-- `CampaignStatus` (lib.rs lines 482-488). -/
inductive CampaignStatus : Type
  | Active
  | Funded
  | Cancelled
deriving DecidableEq

/-- The `Campaign` account (lib.rs lines 448-467), without the pubkey/bump
bookkeeping fields that only address accounts. -/
structure Campaign : Type where
  creator : Nat
  property_id : String
  funding_goal : Nat
  total_raised : Nat
  platform_equity_bps : Nat
  funding_deadline : Int
  token_price : Nat
  total_tokens : Nat
  tokens_sold : Nat
  investor_count : Nat
  status : CampaignStatus
  created_at : Int
deriving DecidableEq

/-- The `InvestorRecord` account (lib.rs lines 469-480). -/
structure InvestorRecord : Type where
  investor : Nat
  amount_invested : Nat
  tokens_purchased : Nat
  invested_at : Int
  refunded : Bool
  tokens_claimed : Bool
deriving DecidableEq

/-- `CrowdfundingError` (lib.rs lines 858-908), plus three values standing for
runtime failures of the surrounding ledger: an account that already exists
(`init` collision), a required account that does not exist, and a lamport
transfer from an underfunded vault. -/
inductive CrowdfundingError : Type
  | Unauthorized
  | NotWhitelisted
  | PropertyIdTooLong
  | InvalidFundingGoal
  | PlatformEquityTooHigh
  | InvalidDeadline
  | InvalidTokenPrice
  | InvalidTokenCount
  | Overflow
  | CampaignNotActive
  | CampaignExpired
  | InvalidAmount
  | AmountBelowMinimum
  | InsufficientTokensAvailable
  | CannotFinalizeYet
  | CampaignNotCancelled
  | AlreadyRefunded
  | NothingToRefund
  | CampaignNotFunded
  | TokensAlreadyClaimed
  | NoTokensToClaim
  | AccountAlreadyInitialized
  | AccountNotInitialized
  | InsufficientFunds
deriving DecidableEq

/-- One campaign together with its investor records (keyed by investor id)
and its escrow vault's lamport balance. -/
structure CfState : Type where
  campaign : Campaign
  records : List (Nat × InvestorRecord)
  escrow : Nat
deriving DecidableEq

/-- The zero-initialized `InvestorRecord` an `init_if_needed` account starts
from before the handler writes it. -/
def emptyInvestorRecord : InvestorRecord :=
  { investor := 0, amount_invested := 0, tokens_purchased := 0, invested_at := 0,
    refunded := false, tokens_claimed := false }

/-- The investor record the `invest` handler sees for a given investor: the
stored one, or the zero-initialized one on first contact. -/
def recOf (s : CfState) (i : Nat) : InvestorRecord :=
  (alookup s.records i).getD emptyInvestorRecord

/-- Sum of `amount_invested` over all investor records of the campaign. -/
def recordsSum (records : List (Nat × InvestorRecord)) : Nat :=
  (records.map (fun p => p.2.amount_invested)).sum

/-- The platform token reservation `invest` recomputes each call
(lib.rs lines 139-143): `total_tokens * platform_equity_bps / 10000` in
`u128`, cast back to `u64`. -/
def platTok (c : Campaign) : Nat :=
  u64Cast (c.total_tokens * c.platform_equity_bps / 10000)

/-- `create_campaign` (lib.rs lines 59-122).  The whitelist gate is the
`whitelisted` flag; the emitted `platform_tokens` / `tokens_available`
event values (lines 103-119) are observer-only and not persisted. -/
def create_campaign (creator : Nat) (whitelisted : Bool) (property_id : String)
    (funding_goal platform_equity_bps : Nat) (funding_deadline : Int)
    (token_price total_tokens : Nat) (now : Int) : Except CrowdfundingError CfState :=
  if whitelisted then
    if property_id.length ≤ 64 then
      if 0 < funding_goal then
        if platform_equity_bps ≤ 5000 then
          if now < funding_deadline then
            if 0 < token_price then
              if 0 < total_tokens then
                .ok { campaign :=
                        { creator := creator, property_id := property_id,
                          funding_goal := funding_goal, total_raised := 0,
                          platform_equity_bps := platform_equity_bps,
                          funding_deadline := funding_deadline,
                          token_price := token_price, total_tokens := total_tokens,
                          tokens_sold := 0, investor_count := 0,
                          status := CampaignStatus.Active, created_at := now },
                      records := [], escrow := 0 }
              else .error .InvalidTokenCount
            else .error .InvalidTokenPrice
          else .error .InvalidDeadline
        else .error .PlatformEquityTooHigh
      else .error .InvalidFundingGoal
    else .error .PropertyIdTooLong
  else .error .NotWhitelisted

/-- `invest` (lib.rs lines 125-203). -/
def invest (s : CfState) (investor amount : Nat) (now : Int) :
    Except CrowdfundingError CfState :=
  if s.campaign.status = CampaignStatus.Active then
    if now < s.campaign.funding_deadline then
      if 0 < amount then
        if s.campaign.token_price ≤ amount then
          match checkedDiv amount s.campaign.token_price with
          | none => .error .Overflow
          | some tokens_to_buy =>
            match checkedMul128 s.campaign.total_tokens s.campaign.platform_equity_bps with
            | none => .error .Overflow
            | some bps_product =>
              match checkedDiv bps_product 10000 with
              | none => .error .Overflow
              | some platform_tokens_wide =>
                match checkedSub s.campaign.total_tokens (u64Cast platform_tokens_wide) with
                | none => .error .Overflow
                | some nonplatform_tokens =>
                  match checkedSub nonplatform_tokens s.campaign.tokens_sold with
                  | none => .error .Overflow
                  | some available_tokens =>
                    if tokens_to_buy ≤ available_tokens then
                      -- system transfer investor -> escrow of `amount` (line 160)
                      match checkedAdd64 (recOf s investor).amount_invested amount with
                      | none => .error .Overflow
                      | some amount_invested_new =>
                        match checkedAdd64 (recOf s investor).tokens_purchased tokens_to_buy with
                        | none => .error .Overflow
                        | some tokens_purchased_new =>
                          match checkedAdd64 s.campaign.total_raised amount with
                          | none => .error .Overflow
                          | some total_raised_new =>
                            match checkedAdd64 s.campaign.tokens_sold tokens_to_buy with
                            | none => .error .Overflow
                            | some tokens_sold_new =>
                              -- is_new_investor (line 164) reads the record before the update
                              match (if (recOf s investor).amount_invested = 0 then
                                       checkedAdd32 s.campaign.investor_count 1
                                     else some s.campaign.investor_count) with
                              | none => .error .Overflow
                              | some investor_count_new =>
                                .ok { campaign :=
                                        { s.campaign with
                                          total_raised := total_raised_new,
                                          tokens_sold := tokens_sold_new,
                                          investor_count := investor_count_new },
                                      records := upsert s.records investor
                                        { investor := investor,
                                          amount_invested := amount_invested_new,
                                          tokens_purchased := tokens_purchased_new,
                                          invested_at := now,
                                          refunded := false, tokens_claimed := false },
                                      escrow := s.escrow + amount }
                    else .error .InsufficientTokensAvailable
        else .error .AmountBelowMinimum
      else .error .InvalidAmount
    else .error .CampaignExpired
  else .error .CampaignNotActive

/-- The settlement computation of `finalize_campaign` (lib.rs lines 221-230):
`platform_share = total_raised * platform_equity_bps / 10000` in `u128` cast
to `u64`, `creator_share = total_raised.checked_sub(platform_share)`. -/
def settlementSplit (total_raised platform_equity_bps : Nat) : Option (Nat × Nat) :=
  match checkedMul128 total_raised platform_equity_bps with
  | none => none
  | some p =>
    match checkedDiv p 10000 with
    | none => none
    | some q =>
      match checkedSub total_raised (u64Cast q) with
      | none => none
      | some creator_share => some (u64Cast q, creator_share)

/-- `finalize_campaign` (lib.rs lines 206-293).  The signer constraint
`creator.key() == campaign.creator` (line 644) is checked by the account
context before the body.  The two escrow pay-outs are guarded in the source
by `> 0` only to skip a no-op transfer; a zero-lamport transfer trivially
satisfies the balance check, so the model checks balances unconditionally. -/
def finalize_campaign (s : CfState) (caller : Nat) (now : Int) :
    Except CrowdfundingError (CfState × Nat × Nat) :=
  if caller = s.campaign.creator then
    if s.campaign.status = CampaignStatus.Active then
      if s.campaign.funding_goal ≤ s.campaign.total_raised ∨
          (s.campaign.funding_deadline ≤ now ∧ 0 < s.campaign.total_raised) then
        match settlementSplit s.campaign.total_raised s.campaign.platform_equity_bps with
        | none => .error .Overflow
        | some (platform_share, creator_share) =>
          if platform_share ≤ s.escrow then
            if creator_share ≤ s.escrow - platform_share then
              .ok ({ s with
                     campaign := { s.campaign with status := CampaignStatus.Funded },
                     escrow := s.escrow - platform_share - creator_share },
                   platform_share, creator_share)
            else .error .InsufficientFunds
          else .error .InsufficientFunds
      else .error .CannotFinalizeYet
    else .error .CampaignNotActive
  else .error .Unauthorized

/-- `cancel_campaign` (lib.rs lines 296-314): sets the status to `Cancelled`
and moves no funds. -/
def cancel_campaign (s : CfState) (caller : Nat) : Except CrowdfundingError CfState :=
  if s.campaign.status = CampaignStatus.Active then
    if caller = s.campaign.creator then
      .ok { s with campaign := { s.campaign with status := CampaignStatus.Cancelled } }
    else .error .Unauthorized
  else .error .CampaignNotActive

/-- `claim_refund` (lib.rs lines 317-360).  The investor record account is
loaded (not created) by the context, so a missing record fails; on success
the full `amount_invested` leaves escrow and `refunded` is set. -/
def claim_refund (s : CfState) (investor : Nat) :
    Except CrowdfundingError (CfState × Nat) :=
  match alookup s.records investor with
  | none => .error .AccountNotInitialized
  | some r =>
    if s.campaign.status = CampaignStatus.Cancelled then
      if r.refunded then .error .AlreadyRefunded
      else
        if 0 < r.amount_invested then
          if r.amount_invested ≤ s.escrow then
            .ok ({ s with
                   records := upsert s.records investor { r with refunded := true },
                   escrow := s.escrow - r.amount_invested },
                 r.amount_invested)
          else .error .InsufficientFunds
        else .error .NothingToRefund
    else .error .CampaignNotCancelled

/-- `claim_tokens` (lib.rs lines 363-405).  On success `tokens_purchased`
fresh tokens are minted to the investor (the returned amount) and
`tokens_claimed` is set. -/
def claim_tokens (s : CfState) (investor : Nat) :
    Except CrowdfundingError (CfState × Nat) :=
  match alookup s.records investor with
  | none => .error .AccountNotInitialized
  | some r =>
    if s.campaign.status = CampaignStatus.Funded then
      if r.tokens_claimed then .error .TokensAlreadyClaimed
      else
        if 0 < r.tokens_purchased then
          .ok ({ s with
                 records := upsert s.records investor { r with tokens_claimed := true } },
               r.tokens_purchased)
        else .error .NoTokensToClaim
    else .error .CampaignNotFunded

/-- One successful state-mutating instruction on a campaign. -/
inductive Step : CfState → CfState → Prop
  | investStep (investor amount : Nat) (now : Int) (s s' : CfState) :
      invest s investor amount now = .ok s' → Step s s'
  | finalizeStep (caller : Nat) (now : Int) (s s' : CfState) (ps cs : Nat) :
      finalize_campaign s caller now = .ok (s', ps, cs) → Step s s'
  | cancelStep (caller : Nat) (s s' : CfState) :
      cancel_campaign s caller = .ok s' → Step s s'
  | claimRefundStep (investor : Nat) (s s' : CfState) (amt : Nat) :
      claim_refund s investor = .ok (s', amt) → Step s s'
  | claimTokensStep (investor : Nat) (s s' : CfState) (amt : Nat) :
      claim_tokens s investor = .ok (s', amt) → Step s s'

/-- States a campaign can actually be in: created by `create_campaign` (whose
numeric arguments are `u64`-typed, hence the `< U64` bounds) and evolved by
successful instructions. -/
inductive Reachable : CfState → Prop
  | created (creator : Nat) (whitelisted : Bool) (property_id : String)
      (funding_goal platform_equity_bps : Nat) (funding_deadline : Int)
      (token_price total_tokens : Nat) (now : Int) (s : CfState)
      (hgoal : funding_goal < U64) (hprice : token_price < U64)
      (htokens : total_tokens < U64) :
      create_campaign creator whitelisted property_id funding_goal
        platform_equity_bps funding_deadline token_price total_tokens now = .ok s →
      Reachable s
  | step (s s' : CfState) : Reachable s → Step s s' → Reachable s'

/-- The inductive invariant of a reachable campaign state. -/
structure CfInv (s : CfState) : Prop where
  bps_le : s.campaign.platform_equity_bps ≤ 5000
  price_pos : 0 < s.campaign.token_price
  total_tokens_lt : s.campaign.total_tokens < U64
  total_raised_lt : s.campaign.total_raised < U64
  tokens_sold_lt : s.campaign.tokens_sold < U64
  conservation : s.campaign.total_raised = recordsSum s.records
  reservation : s.campaign.tokens_sold + platTok s.campaign ≤ s.campaign.total_tokens
  flags : ∀ p ∈ s.records,
      (p.2.refunded = true → s.campaign.status = CampaignStatus.Cancelled) ∧
      (p.2.tokens_claimed = true → s.campaign.status = CampaignStatus.Funded)

/-- Placeholder state used only as the (never taken) fallback of `okOr` in
the concrete traces below. -/
def cfDummy : CfState :=
  { campaign :=
      { creator := 0, property_id := "", funding_goal := 0, total_raised := 0,
        platform_equity_bps := 0, funding_deadline := 0, token_price := 0,
        total_tokens := 0, tokens_sold := 0, investor_count := 0,
        status := CampaignStatus.Active, created_at := 0 },
    records := [], escrow := 0 }

/-- Concrete trace: campaign with goal 100, 10% platform equity, deadline 100,
token price 10, 100 tokens. -/
def cf0 : CfState :=
  okOr (create_campaign 0 true "villa-1" 100 1000 100 10 100 0) cfDummy

/-- Investor 5 invests 50 at time 1. -/
def cf1 : CfState := okOr (invest cf0 5 50 1) cfDummy

/-- Investor 6 invests 60 at time 2, so total_raised = 110 ≥ goal. -/
def cf2 : CfState := okOr (invest cf1 6 60 2) cfDummy

/-- The creator finalizes at time 3 (fully funded). -/
def cfF : CfState := (okOr (finalize_campaign cf2 0 3) (cfDummy, 0, 0)).1

/-- Investor 5 claims their 5 tokens after finalization. -/
def cfT1 : CfState := (okOr (claim_tokens cfF 5) (cfDummy, 0)).1

/-- Alternative branch: the creator cancels from `cf2` instead. -/
def cfC : CfState := okOr (cancel_campaign cf2 0) cfDummy

/-- Investor 5 claims their 50-lamport refund after cancellation. -/
def cfR1 : CfState := (okOr (claim_refund cfC 5) (cfDummy, 0)).1

/-- Investor 6 claims their 60-lamport refund next. -/
def cfR2 : CfState := (okOr (claim_refund cfR1 6) (cfDummy, 0)).1

end Crowdfunding

namespace PropertyDividends

/-- `DividendError` (property_dividends lib.rs lines 503-529) plus the same
three runtime-failure values as on the crowdfunding side. -/
inductive DividendError : Type
  | Unauthorized
  | PropertyIdTooLong
  | InvalidFrequency
  | InvalidAmount
  | Overflow
  | NoDividendsToDistribute
  | NoTokensInCirculation
  | AlreadyClaimed
  | NoTokensHeld
  | NoDividendsToClaim
  | InvalidTokenOwner
  | InvalidMint
  | AccountAlreadyInitialized
  | AccountNotInitialized
  | InsufficientFunds
deriving DecidableEq

/-- The `DividendPool` account (lib.rs lines 217-240) without pubkey/bump
addressing fields. -/
structure DividendPool : Type where
  authority : Nat
  property_id : String
  total_distributed : Nat
  current_epoch : Nat
  distribution_frequency_days : Nat
  last_distribution_time : Int
  total_deposited_current_epoch : Nat
deriving DecidableEq

/-- The `DistributionRecord` account (lib.rs lines 242-261). -/
structure DistributionRecord : Type where
  epoch : Nat
  total_amount : Nat
  total_token_supply : Nat
  amount_per_token : Nat
  distributed_at : Int
  total_claimed : Nat
deriving DecidableEq

/-- The `ClaimRecord` account (lib.rs lines 263-280); its PDA key
`(distribution, user)` is the `(epoch, user)` key of the map below, since a
distribution's PDA is keyed by `(pool, epoch)`. -/
structure ClaimRecord : Type where
  user : Nat
  epoch : Nat
  amount_claimed : Nat
  claimed_at : Int
  claimed : Bool
deriving DecidableEq

/-- One dividend pool with its distribution records (keyed by epoch), claim
records (keyed by `(epoch, user)`) and vault balance.  The property-token
mint is an external collaborator: its supply and the claimant's balance enter
the operations as read parameters. -/
structure DivState : Type where
  pool : DividendPool
  distributions : List (Nat × DistributionRecord)
  claims : List ((Nat × Nat) × ClaimRecord)
  vault : Nat
deriving DecidableEq

/-- `initialize_pool` (lib.rs lines 11-39). -/
def initialize_pool (authority : Nat) (property_id : String)
    (distribution_frequency_days : Nat) : Except DividendError DivState :=
  if property_id.length ≤ 64 then
    if 0 < distribution_frequency_days then
      .ok { pool :=
              { authority := authority, property_id := property_id,
                total_distributed := 0, current_epoch := 0,
                distribution_frequency_days := distribution_frequency_days,
                last_distribution_time := 0, total_deposited_current_epoch := 0 },
            distributions := [], claims := [], vault := 0 }
    else .error .InvalidFrequency
  else .error .PropertyIdTooLong

/-- `deposit_dividend` (lib.rs lines 42-70).  The authority constraint
(line 321) is checked by the account context before the body. -/
def deposit_dividend (s : DivState) (caller amount : Nat) :
    Except DividendError DivState :=
  if caller = s.pool.authority then
    if 0 < amount then
      match checkedAdd64 s.pool.total_deposited_current_epoch amount with
      | none => .error .Overflow
      | some deposited_new =>
        .ok { s with
              pool := { s.pool with total_deposited_current_epoch := deposited_new },
              vault := s.vault + amount }
    else .error .InvalidAmount
  else .error .Unauthorized

/-- `start_distribution` (lib.rs lines 73-117).  The `distribution_record`
account is `init`-created at PDA `(pool, current_epoch)` (lines 360-366), so
an existing record at that epoch fails account validation; `supply` is the
property mint's current supply read at call time. -/
def start_distribution (s : DivState) (caller supply : Nat) (now : Int) :
    Except DividendError (DivState × DistributionRecord) :=
  if caller = s.pool.authority then
    match alookup s.distributions s.pool.current_epoch with
    | some _ => .error .AccountAlreadyInitialized
    | none =>
      if 0 < s.pool.total_deposited_current_epoch then
        if 0 < supply then
          match checkedDiv s.pool.total_deposited_current_epoch supply with
          | none => .error .Overflow
          | some amount_per_token =>
            match checkedAdd64 s.pool.total_distributed s.pool.total_deposited_current_epoch with
            | none => .error .Overflow
            | some total_distributed_new =>
              match checkedAdd64 s.pool.current_epoch 1 with
              | none => .error .Overflow
              | some current_epoch_new =>
                .ok ({ s with
                       pool := { s.pool with
                         total_distributed := total_distributed_new,
                         last_distribution_time := now,
                         current_epoch := current_epoch_new,
                         total_deposited_current_epoch := 0 },
                       distributions := upsert s.distributions s.pool.current_epoch
                         { epoch := s.pool.current_epoch,
                           total_amount := s.pool.total_deposited_current_epoch,
                           total_token_supply := supply,
                           amount_per_token := amount_per_token,
                           distributed_at := now,
                           total_claimed := 0 } },
                     { epoch := s.pool.current_epoch,
                       total_amount := s.pool.total_deposited_current_epoch,
                       total_token_supply := supply,
                       amount_per_token := amount_per_token,
                       distributed_at := now,
                       total_claimed := 0 })
        else .error .NoTokensInCirculation
      else .error .NoDividendsToDistribute
  else .error .Unauthorized

/-- `claim_dividend` (lib.rs lines 120-179).  The distribution record at the
named epoch must exist (account load); the claim record is `init`-created at
PDA `(distribution, user)` (lines 405-412), so a second claim by the same
user for the same epoch fails account validation before the body runs — the
body's own `require!(!claim_record.claimed)` reads the freshly
zero-initialized record and always passes.  `balance` is the claimant's
current token balance read at call time. -/
def claim_dividend (s : DivState) (user epoch balance : Nat) (now : Int) :
    Except DividendError (DivState × Nat) :=
  match alookup s.distributions epoch with
  | none => .error .AccountNotInitialized
  | some distribution =>
    match alookup s.claims (epoch, user) with
    | some _ => .error .AccountAlreadyInitialized
    | none =>
      if 0 < balance then
        match checkedMul64 balance distribution.amount_per_token with
        | none => .error .Overflow
        | some dividend_amount =>
          if 0 < dividend_amount then
            if dividend_amount ≤ s.vault then
              .ok ({ s with
                     claims := upsert s.claims (epoch, user)
                       { user := user, epoch := epoch,
                         amount_claimed := dividend_amount,
                         claimed_at := now, claimed := true },
                     vault := s.vault - dividend_amount },
                   dividend_amount)
            else .error .InsufficientFunds
          else .error .NoDividendsToClaim
      else .error .NoTokensHeld

/-- `get_claimable_amount` (lib.rs lines 182-195): pure view. -/
def get_claimable_amount (s : DivState) (epoch balance : Nat) :
    Except DividendError Nat :=
  match alookup s.distributions epoch with
  | none => .error .AccountNotInitialized
  | some distribution =>
    if balance = 0 then .ok 0
    else
      match checkedMul64 balance distribution.amount_per_token with
      | none => .error .Overflow
      | some dividend_amount => .ok dividend_amount

/-- `update_authority` (lib.rs lines 198-210). -/
def update_authority (s : DivState) (caller new_authority : Nat) :
    Except DividendError DivState :=
  if caller = s.pool.authority then
    .ok { s with pool := { s.pool with authority := new_authority } }
  else .error .Unauthorized

/-- One successful state-mutating instruction on a dividend pool. -/
inductive DivStep : DivState → DivState → Prop
  | depositStep (caller amount : Nat) (s s' : DivState) :
      deposit_dividend s caller amount = .ok s' → DivStep s s'
  | startStep (caller supply : Nat) (now : Int) (s s' : DivState)
      (d : DistributionRecord) :
      start_distribution s caller supply now = .ok (s', d) → DivStep s s'
  | claimStep (user epoch balance : Nat) (now : Int) (s s' : DivState) (amt : Nat) :
      claim_dividend s user epoch balance now = .ok (s', amt) → DivStep s s'
  | updateAuthorityStep (caller new_authority : Nat) (s s' : DivState) :
      update_authority s caller new_authority = .ok s' → DivStep s s'

/-- States a dividend pool can actually be in. -/
inductive DivReachable : DivState → Prop
  | created (authority : Nat) (property_id : String)
      (distribution_frequency_days : Nat) (s : DivState) :
      initialize_pool authority property_id distribution_frequency_days = .ok s →
      DivReachable s
  | step (s s' : DivState) : DivReachable s → DivStep s s' → DivReachable s'

/-- Placeholder state for the `okOr` fallbacks of the concrete trace. -/
def dvDummy : DivState :=
  { pool :=
      { authority := 0, property_id := "", total_distributed := 0,
        current_epoch := 0, distribution_frequency_days := 1,
        last_distribution_time := 0, total_deposited_current_epoch := 0 },
    distributions := [], claims := [], vault := 0 }

/-- Placeholder distribution record for `okOr` fallbacks. -/
def dvDummyRecord : DistributionRecord :=
  { epoch := 0, total_amount := 0, total_token_supply := 0, amount_per_token := 0,
    distributed_at := 0, total_claimed := 0 }

/-- Concrete trace: pool initialized by authority 1, 30-day frequency. -/
def dv0 : DivState := okOr (initialize_pool 1 "villa-1" 30) dvDummy

/-- The authority deposits 1000 lamports of income. -/
def dv1 : DivState := okOr (deposit_dividend dv0 1 1000) dvDummy

/-- Epoch 0 opens against a circulating supply of 7 tokens. -/
def dv2 : DivState :=
  (okOr (start_distribution dv1 1 7 10) (dvDummy, dvDummyRecord)).1

/-- The distribution record epoch 0 was opened with. -/
def dvD0 : DistributionRecord :=
  (okOr (start_distribution dv1 1 7 10) (dvDummy, dvDummyRecord)).2

/-- User 7, holding 3 tokens, claims their epoch-0 dividend. -/
def dv3 : DivState := (okOr (claim_dividend dv2 7 0 3 20) (dvDummy, 0)).1

/-- The distribution record a state holds for a given epoch (placeholder
record when the epoch has not been opened). -/
def distOf (s : DivState) (epoch : Nat) : DistributionRecord :=
  (alookup s.distributions epoch).getD dvDummyRecord

end PropertyDividends

/-! ## Basic lemmas about the checked arithmetic and the association lists -/

theorem checkedAdd64_some {a b c : Nat} (h : checkedAdd64 a b = some c) :
    a + b < U64 ∧ c = a + b := by
  unfold checkedAdd64 at h
  split at h <;> simp_all

theorem checkedAdd32_some {a b c : Nat} (h : checkedAdd32 a b = some c) :
    a + b < U32 ∧ c = a + b := by
  unfold checkedAdd32 at h
  split at h <;> simp_all

theorem checkedSub_some {a b d : Nat} (h : checkedSub a b = some d) :
    b ≤ a ∧ d = a - b := by
  unfold checkedSub at h
  split at h <;> simp_all

theorem checkedDiv_some {a b q : Nat} (h : checkedDiv a b = some q) :
    b ≠ 0 ∧ q = a / b := by
  unfold checkedDiv at h
  split at h <;> simp_all

theorem checkedMul64_some {a b m : Nat} (h : checkedMul64 a b = some m) :
    a * b < U64 ∧ m = a * b := by
  unfold checkedMul64 at h
  split at h <;> simp_all

theorem checkedMul128_some {a b m : Nat} (h : checkedMul128 a b = some m) :
    a * b < U128 ∧ m = a * b := by
  unfold checkedMul128 at h
  split at h <;> simp_all

theorem alookup_upsert_self {κ α : Type} [DecidableEq κ] (l : List (κ × α)) (k : κ) (v : α) :
    alookup (upsert l k v) k = some v := by
  induction l with
  | nil => simp [upsert, alookup]
  | cons p rest ih =>
    obtain ⟨j, w⟩ := p
    by_cases hjk : j = k
    · simp [upsert, hjk, alookup]
    · simp [upsert, hjk, alookup, ih]

theorem alookup_upsert_ne {κ α : Type} [DecidableEq κ] (l : List (κ × α)) (k k' : κ) (v : α)
    (h : k' ≠ k) : alookup (upsert l k v) k' = alookup l k' := by
  have hk : ¬ k = k' := fun he => h he.symm
  induction l with
  | nil => simp only [upsert, alookup, if_neg hk]
  | cons p rest ih =>
    obtain ⟨j, w⟩ := p
    by_cases hjk : j = k
    · subst hjk
      simp only [upsert, if_pos rfl, alookup, if_neg hk]
    · simp only [upsert, if_neg hjk, alookup, ih]

theorem mem_upsert {κ α : Type} [DecidableEq κ] (l : List (κ × α)) (k : κ) (v : α)
    (p : κ × α) (hp : p ∈ upsert l k v) : p = (k, v) ∨ p ∈ l := by
  induction l with
  | nil => simpa [upsert] using hp
  | cons q rest ih =>
    obtain ⟨j, w⟩ := q
    by_cases hjk : j = k
    · subst hjk
      simp [upsert, List.mem_cons] at hp
      rcases hp with h1 | h1
      · exact Or.inl h1
      · exact Or.inr (List.mem_cons_of_mem _ h1)
    · simp only [upsert, if_neg hjk, List.mem_cons] at hp
      rcases hp with h1 | h1
      · exact Or.inr (by rw [h1]; exact List.mem_cons_self _ _)
      · rcases ih h1 with h2 | h2
        · exact Or.inl h2
        · exact Or.inr (List.mem_cons_of_mem _ h2)

theorem alookup_mem {κ α : Type} [DecidableEq κ] (l : List (κ × α)) (k : κ) (v : α)
    (h : alookup l k = some v) : (k, v) ∈ l := by
  induction l with
  | nil => simp [alookup] at h
  | cons p rest ih =>
    obtain ⟨j, w⟩ := p
    by_cases hjk : j = k
    · subst hjk
      simp [alookup] at h
      subst h
      exact List.mem_cons_self _ _
    · simp only [alookup, if_neg hjk] at h
      exact List.mem_cons_of_mem _ (ih h)

namespace Crowdfunding

theorem recordsSum_upsert (records : List (Nat × InvestorRecord)) (i : Nat)
    (r : InvestorRecord) :
    recordsSum (upsert records i r) +
      ((alookup records i).getD emptyInvestorRecord).amount_invested
      = recordsSum records + r.amount_invested := by
  induction records with
  | nil => simp [upsert, alookup, recordsSum, emptyInvestorRecord]
  | cons p rest ih =>
    obtain ⟨j, w⟩ := p
    by_cases hji : j = i
    · subst hji
      simp [upsert, alookup, recordsSum]
      omega
    · simp only [upsert, if_neg hji, alookup, recordsSum, List.map_cons, List.sum_cons] at ih ⊢
      omega

/-- With `platform_equity_bps ≤ 10000` and a `u64` token count, the `as u64`
cast in the platform-token formula is the identity and the reservation is at
most the total supply. -/
theorem platTok_eq_of_le (c : Campaign) (hbps : c.platform_equity_bps ≤ 10000)
    (ht : c.total_tokens < U64) :
    platTok c = c.total_tokens * c.platform_equity_bps / 10000 ∧
    platTok c ≤ c.total_tokens := by
  have hq : c.total_tokens * c.platform_equity_bps / 10000 ≤ c.total_tokens := by
    calc c.total_tokens * c.platform_equity_bps / 10000
        ≤ c.total_tokens * 10000 / 10000 :=
          Nat.div_le_div_right (Nat.mul_le_mul_left _ hbps)
      _ = c.total_tokens := Nat.mul_div_cancel _ (by norm_num)
  have heq : platTok c = c.total_tokens * c.platform_equity_bps / 10000 := by
    unfold platTok u64Cast
    exact Nat.mod_eq_of_lt (lt_of_le_of_lt hq ht)
  exact ⟨heq, heq ▸ hq⟩

end Crowdfunding

/-! ## Characterizations of the successful crowdfunding instructions -/

namespace Crowdfunding

/-- What a successful `create_campaign` enforced and produced. -/
theorem create_campaign_ok_spec (creator : Nat) (whitelisted : Bool) (property_id : String)
    (funding_goal platform_equity_bps : Nat) (funding_deadline : Int)
    (token_price total_tokens : Nat) (now : Int) (s : CfState)
    (h : create_campaign creator whitelisted property_id funding_goal platform_equity_bps
      funding_deadline token_price total_tokens now = .ok s) :
    whitelisted = true ∧ property_id.length ≤ 64 ∧ 0 < funding_goal ∧
    platform_equity_bps ≤ 5000 ∧ now < funding_deadline ∧ 0 < token_price ∧
    0 < total_tokens ∧
    s = { campaign :=
            { creator := creator, property_id := property_id,
              funding_goal := funding_goal, total_raised := 0,
              platform_equity_bps := platform_equity_bps,
              funding_deadline := funding_deadline,
              token_price := token_price, total_tokens := total_tokens,
              tokens_sold := 0, investor_count := 0,
              status := CampaignStatus.Active, created_at := now },
          records := [], escrow := 0 } := by
  unfold create_campaign at h
  repeat' split at h
  all_goals first
    | exact Except.noConfusion h
    | (injection h with h
       subst h
       refine ⟨by assumption, by assumption, by assumption, by assumption, by assumption,
         by assumption, by assumption, rfl⟩)

/-- What a successful `invest` enforced and produced: the source's guard
chain, the availability bound against the recomputed platform reservation,
the overflow bounds of the checked additions, and the exact state update. -/
theorem invest_ok_spec (s : CfState) (investor amount : Nat) (now : Int) (s' : CfState)
    (h : invest s investor amount now = .ok s') :
    s.campaign.status = CampaignStatus.Active ∧
    now < s.campaign.funding_deadline ∧
    0 < amount ∧
    s.campaign.token_price ≤ amount ∧
    s.campaign.token_price ≠ 0 ∧
    platTok s.campaign ≤ s.campaign.total_tokens ∧
    s.campaign.tokens_sold ≤ s.campaign.total_tokens - platTok s.campaign ∧
    amount / s.campaign.token_price ≤
      s.campaign.total_tokens - platTok s.campaign - s.campaign.tokens_sold ∧
    (recOf s investor).amount_invested + amount < U64 ∧
    (recOf s investor).tokens_purchased + amount / s.campaign.token_price < U64 ∧
    s.campaign.total_raised + amount < U64 ∧
    s.campaign.tokens_sold + amount / s.campaign.token_price < U64 ∧
    s'.campaign.status = s.campaign.status ∧
    s'.campaign.creator = s.campaign.creator ∧
    s'.campaign.property_id = s.campaign.property_id ∧
    s'.campaign.funding_goal = s.campaign.funding_goal ∧
    s'.campaign.platform_equity_bps = s.campaign.platform_equity_bps ∧
    s'.campaign.funding_deadline = s.campaign.funding_deadline ∧
    s'.campaign.token_price = s.campaign.token_price ∧
    s'.campaign.total_tokens = s.campaign.total_tokens ∧
    s'.campaign.total_raised = s.campaign.total_raised + amount ∧
    s'.campaign.tokens_sold = s.campaign.tokens_sold + amount / s.campaign.token_price ∧
    s'.records = upsert s.records investor
      { investor := investor,
        amount_invested := (recOf s investor).amount_invested + amount,
        tokens_purchased :=
          (recOf s investor).tokens_purchased + amount / s.campaign.token_price,
        invested_at := now, refunded := false, tokens_claimed := false } ∧
    s'.escrow = s.escrow + amount := by
  unfold invest at h
  repeat' split at h
  any_goals exact Except.noConfusion h
  rename_i hActive hDeadline hPos hMin x1 tokens_to_buy hDiv x2 bps_product hMul x3 ptw hDivQ
    x4 npt hSub1 x5 avail hSub2 hLe x6 ainew hAdd1 x7 tpnew hAdd2 x8 trnew hAdd3
    x9 tsnew hAdd4 x10 icnew hAdd5
  obtain ⟨hpne, httb⟩ := checkedDiv_some hDiv
  obtain ⟨-, hbp⟩ := checkedMul128_some hMul
  obtain ⟨-, hptw⟩ := checkedDiv_some hDivQ
  obtain ⟨hle1, hnpt⟩ := checkedSub_some hSub1
  obtain ⟨hle2, havail⟩ := checkedSub_some hSub2
  obtain ⟨hb1, hai⟩ := checkedAdd64_some hAdd1
  obtain ⟨hb2, htp⟩ := checkedAdd64_some hAdd2
  obtain ⟨hb3, htr⟩ := checkedAdd64_some hAdd3
  obtain ⟨hb4, hts⟩ := checkedAdd64_some hAdd4
  subst httb
  subst hbp
  subst hptw
  subst hnpt
  subst havail
  subst hai
  subst htp
  subst htr
  subst hts
  injection h with h
  subst h
  exact ⟨hActive, hDeadline, hPos, hMin, hpne, hle1, hle2, hLe, hb1, hb2, hb3, hb4,
    rfl, rfl, rfl, rfl, rfl, rfl, rfl, rfl, rfl, rfl, rfl, rfl⟩

/-- What a successful `finalize_campaign` enforced and produced. -/
theorem finalize_campaign_ok_spec (s : CfState) (caller : Nat) (now : Int)
    (s' : CfState) (ps cs : Nat)
    (h : finalize_campaign s caller now = .ok (s', ps, cs)) :
    caller = s.campaign.creator ∧
    s.campaign.status = CampaignStatus.Active ∧
    (s.campaign.funding_goal ≤ s.campaign.total_raised ∨
      (s.campaign.funding_deadline ≤ now ∧ 0 < s.campaign.total_raised)) ∧
    settlementSplit s.campaign.total_raised s.campaign.platform_equity_bps = some (ps, cs) ∧
    ps ≤ s.escrow ∧ cs ≤ s.escrow - ps ∧
    s' = { s with
           campaign := { s.campaign with status := CampaignStatus.Funded },
           escrow := s.escrow - ps - cs } := by
  unfold finalize_campaign at h
  repeat' split at h
  any_goals exact Except.noConfusion h
  rename_i hCreator hActive hFund x1 ps0 cs0 hSplit hPs hCs
  injection h with h
  injection h with h1 h2
  injection h2 with h2 h3
  subst h1
  subst h2
  subst h3
  exact ⟨hCreator, hActive, hFund, hSplit, hPs, hCs, rfl⟩

/-- What a successful `cancel_campaign` enforced and produced. -/
theorem cancel_campaign_ok_spec (s : CfState) (caller : Nat) (s' : CfState)
    (h : cancel_campaign s caller = .ok s') :
    s.campaign.status = CampaignStatus.Active ∧
    caller = s.campaign.creator ∧
    s' = { s with campaign := { s.campaign with status := CampaignStatus.Cancelled } } := by
  unfold cancel_campaign at h
  repeat' split at h
  any_goals exact Except.noConfusion h
  rename_i hActive hCreator
  injection h with h
  subst h
  exact ⟨hActive, hCreator, rfl⟩

/-- What a successful `claim_refund` enforced and produced: the record
existed, the campaign was cancelled, the record was not yet refunded, the
full invested amount was paid out, and only the `refunded` flag and the
escrow balance changed. -/
theorem claim_refund_ok_spec (s : CfState) (investor : Nat) (s' : CfState) (amt : Nat)
    (h : claim_refund s investor = .ok (s', amt)) :
    alookup s.records investor = some (recOf s investor) ∧
    s.campaign.status = CampaignStatus.Cancelled ∧
    (recOf s investor).refunded = false ∧
    0 < (recOf s investor).amount_invested ∧
    amt = (recOf s investor).amount_invested ∧
    amt ≤ s.escrow ∧
    s' = { s with
           records := upsert s.records investor { recOf s investor with refunded := true },
           escrow := s.escrow - amt } := by
  unfold claim_refund at h
  repeat' split at h
  any_goals exact Except.noConfusion h
  rename_i x1 r hLookup hCancelled hNotRefunded hPos hEscrow
  have hr : recOf s investor = r := by
    unfold recOf
    rw [hLookup]
    rfl
  injection h with h
  injection h with h1 h2
  subst h1
  subst h2
  rw [hr]
  exact ⟨hLookup, hCancelled, by rw [Bool.not_eq_true] at hNotRefunded; exact hNotRefunded,
    hPos, rfl, hEscrow, rfl⟩

/-- What a successful `claim_tokens` enforced and produced: the record
existed, the campaign was funded, tokens were not yet claimed, exactly
`tokens_purchased` tokens were minted, and only the `tokens_claimed` flag
changed. -/
theorem claim_tokens_ok_spec (s : CfState) (investor : Nat) (s' : CfState) (amt : Nat)
    (h : claim_tokens s investor = .ok (s', amt)) :
    alookup s.records investor = some (recOf s investor) ∧
    s.campaign.status = CampaignStatus.Funded ∧
    (recOf s investor).tokens_claimed = false ∧
    0 < (recOf s investor).tokens_purchased ∧
    amt = (recOf s investor).tokens_purchased ∧
    s' = { s with
           records := upsert s.records investor
             { recOf s investor with tokens_claimed := true } } := by
  unfold claim_tokens at h
  repeat' split at h
  any_goals exact Except.noConfusion h
  rename_i x1 r hLookup hFunded hNotClaimed hPos
  have hr : recOf s investor = r := by
    unfold recOf
    rw [hLookup]
    rfl
  injection h with h
  injection h with h1 h2
  subst h1
  subst h2
  rw [hr]
  exact ⟨hLookup, hFunded, by rw [Bool.not_eq_true] at hNotClaimed; exact hNotClaimed,
    hPos, rfl, rfl⟩

/-! ## The inductive invariant of reachable campaign states -/

theorem recOf_eq (s : CfState) (i : Nat) :
    recOf s i = (alookup s.records i).getD emptyInvestorRecord := rfl

/-- Replacing a stored record by one with the same `amount_invested` keeps
the campaign-wide invested sum unchanged. -/
theorem recordsSum_upsert_same_amount (records : List (Nat × InvestorRecord)) (i : Nat)
    (r r' : InvestorRecord) (hl : alookup records i = some r)
    (hr : r'.amount_invested = r.amount_invested) :
    recordsSum (upsert records i r') = recordsSum records := by
  have hkey := recordsSum_upsert records i r'
  rw [hl] at hkey
  simp only [Option.getD_some] at hkey
  omega

/-- `create_campaign` establishes the invariant. -/
theorem cfInv_create (creator : Nat) (whitelisted : Bool) (property_id : String)
    (funding_goal platform_equity_bps : Nat) (funding_deadline : Int)
    (token_price total_tokens : Nat) (now : Int) (s : CfState)
    (hgoal : funding_goal < U64) (hprice : token_price < U64)
    (htokens : total_tokens < U64)
    (h : create_campaign creator whitelisted property_id funding_goal platform_equity_bps
      funding_deadline token_price total_tokens now = .ok s) : CfInv s := by
  obtain ⟨hw, hlen, hg, hbps, hdl, hp, ht, hs⟩ :=
    create_campaign_ok_spec creator whitelisted property_id funding_goal
      platform_equity_bps funding_deadline token_price total_tokens now s h
  subst hs
  refine ⟨hbps, hp, htokens, (by positivity : (0:Nat) < 2 ^ 64),
    (by positivity : (0:Nat) < 2 ^ 64), rfl, ?_, by simp⟩
  have hres := (platTok_eq_of_le
    { creator := creator, property_id := property_id, funding_goal := funding_goal,
      total_raised := 0, platform_equity_bps := platform_equity_bps,
      funding_deadline := funding_deadline, token_price := token_price,
      total_tokens := total_tokens, tokens_sold := 0, investor_count := 0,
      status := CampaignStatus.Active, created_at := now }
    (le_trans hbps (by norm_num)) htokens).2
  simpa using hres

/-- Every successful instruction preserves the invariant. -/
theorem cfInv_step (s s' : CfState) (hinv : CfInv s) (hstep : Step s s') : CfInv s' := by
  cases hstep with
  | investStep investor amount now s0 s1 h =>
    obtain ⟨hActive, hDl, hPos, hMin, hpne, hle1, hle2, hLe, hb1, hb2, hb3, hb4,
      hst, hcr, hpid, hfg, hbps, hfd, htp, htt, htr, hts, hrec, hesc⟩ :=
      invest_ok_spec s investor amount now s' h
    have hplat : platTok s'.campaign = platTok s.campaign := by
      unfold platTok
      rw [htt, hbps]
    have hkey := recordsSum_upsert s.records investor
      { investor := investor,
        amount_invested := (recOf s investor).amount_invested + amount,
        tokens_purchased :=
          (recOf s investor).tokens_purchased + amount / s.campaign.token_price,
        invested_at := now, refunded := false, tokens_claimed := false }
    rw [← recOf_eq] at hkey
    simp only [] at hkey
    refine ⟨hbps ▸ hinv.bps_le, htp ▸ hinv.price_pos, htt ▸ hinv.total_tokens_lt,
      htr ▸ hb3, hts ▸ hb4, ?_, ?_, ?_⟩
    · rw [htr, hrec]
      have hcons := hinv.conservation
      omega
    · rw [hts, htt, hplat]
      omega
    · intro p hp
      rw [hrec] at hp
      rcases mem_upsert s.records investor _ p hp with hpe | hpm
      · subst hpe
        constructor
        · intro hx
          simp at hx
        · intro hx
          simp at hx
      · obtain ⟨h1, h2⟩ := hinv.flags p hpm
        constructor
        · intro hx
          have hc := h1 hx
          rw [hActive] at hc
          exact absurd hc (by decide)
        · intro hx
          have hc := h2 hx
          rw [hActive] at hc
          exact absurd hc (by decide)
  | finalizeStep caller now s0 s1 ps cs h =>
    obtain ⟨hCreator, hActive, hFund, hSplit, hPs, hCs, hs'⟩ :=
      finalize_campaign_ok_spec s caller now s' ps cs h
    subst hs'
    refine ⟨hinv.bps_le, hinv.price_pos, hinv.total_tokens_lt, hinv.total_raised_lt,
      hinv.tokens_sold_lt, hinv.conservation, hinv.reservation, ?_⟩
    intro p hp
    obtain ⟨h1, h2⟩ := hinv.flags p hp
    constructor
    · intro hx
      have hc := h1 hx
      rw [hActive] at hc
      exact absurd hc (by decide)
    · intro hx
      exact rfl
  | cancelStep caller s0 s1 h =>
    obtain ⟨hActive, hCreator, hs'⟩ := cancel_campaign_ok_spec s caller s' h
    subst hs'
    refine ⟨hinv.bps_le, hinv.price_pos, hinv.total_tokens_lt, hinv.total_raised_lt,
      hinv.tokens_sold_lt, hinv.conservation, hinv.reservation, ?_⟩
    intro p hp
    obtain ⟨h1, h2⟩ := hinv.flags p hp
    constructor
    · intro hx
      exact rfl
    · intro hx
      have hc := h2 hx
      rw [hActive] at hc
      exact absurd hc (by decide)
  | claimRefundStep investor s0 s1 amt h =>
    obtain ⟨hLookup, hCancelled, hNotRef, hPosAmt, hAmt, hEsc, hs'⟩ :=
      claim_refund_ok_spec s investor s' amt h
    have hmem := alookup_mem s.records investor (recOf s investor) hLookup
    subst hs'
    have hsum := recordsSum_upsert_same_amount s.records investor (recOf s investor)
      { recOf s investor with refunded := true } hLookup rfl
    refine ⟨hinv.bps_le, hinv.price_pos, hinv.total_tokens_lt, hinv.total_raised_lt,
      hinv.tokens_sold_lt, ?_, hinv.reservation, ?_⟩
    · show s.campaign.total_raised = recordsSum
        (upsert s.records investor { recOf s investor with refunded := true })
      rw [hsum]
      exact hinv.conservation
    · intro p hp
      rcases mem_upsert s.records investor _ p hp with hpe | hpm
      · subst hpe
        constructor
        · intro hx
          exact hCancelled
        · intro hx
          simp only [] at hx
          have hc := (hinv.flags _ hmem).2 hx
          rw [hCancelled] at hc
          exact absurd hc (by decide)
      · obtain ⟨h1, h2⟩ := hinv.flags p hpm
        constructor
        · intro hx
          exact h1 hx
        · intro hx
          have hc := h2 hx
          rw [hCancelled] at hc
          exact absurd hc (by decide)
  | claimTokensStep investor s0 s1 amt h =>
    obtain ⟨hLookup, hFunded, hNotCl, hPosTok, hAmt, hs'⟩ :=
      claim_tokens_ok_spec s investor s' amt h
    have hmem := alookup_mem s.records investor (recOf s investor) hLookup
    subst hs'
    have hsum := recordsSum_upsert_same_amount s.records investor (recOf s investor)
      { recOf s investor with tokens_claimed := true } hLookup rfl
    refine ⟨hinv.bps_le, hinv.price_pos, hinv.total_tokens_lt, hinv.total_raised_lt,
      hinv.tokens_sold_lt, ?_, hinv.reservation, ?_⟩
    · show s.campaign.total_raised = recordsSum
        (upsert s.records investor { recOf s investor with tokens_claimed := true })
      rw [hsum]
      exact hinv.conservation
    · intro p hp
      rcases mem_upsert s.records investor _ p hp with hpe | hpm
      · subst hpe
        constructor
        · intro hx
          simp only [] at hx
          have hc := (hinv.flags _ hmem).1 hx
          rw [hFunded] at hc
          exact absurd hc (by decide)
        · intro hx
          exact hFunded
      · obtain ⟨h1, h2⟩ := hinv.flags p hpm
        constructor
        · intro hx
          have hc := h1 hx
          rw [hFunded] at hc
          exact absurd hc (by decide)
        · intro hx
          exact h2 hx

/-- Every reachable campaign state satisfies the invariant. -/
theorem reachable_cfInv (s : CfState) (hs : Reachable s) : CfInv s := by
  induction hs with
  | created creator whitelisted property_id funding_goal platform_equity_bps
      funding_deadline token_price total_tokens now s hgoal hprice htokens h =>
    exact cfInv_create creator whitelisted property_id funding_goal platform_equity_bps
      funding_deadline token_price total_tokens now s hgoal hprice htokens h
  | step s s' hreach hstep ih => exact cfInv_step s s' ih hstep

/-! ## Concrete reachability of the trace states -/

theorem reach_cf0 : Reachable cf0 :=
  Reachable.created 0 true "villa-1" 100 1000 100 10 100 0 cf0
    (by decide) (by decide) (by decide) (by decide)

theorem reach_cf1 : Reachable cf1 :=
  Reachable.step cf0 cf1 reach_cf0 (Step.investStep 5 50 1 cf0 cf1 (by decide))

theorem reach_cf2 : Reachable cf2 :=
  Reachable.step cf1 cf2 reach_cf1 (Step.investStep 6 60 2 cf1 cf2 (by decide))

theorem reach_cfF : Reachable cfF :=
  Reachable.step cf2 cfF reach_cf2 (Step.finalizeStep 0 3 cf2 cfF 11 99 (by decide))

theorem reach_cfC : Reachable cfC :=
  Reachable.step cf2 cfC reach_cf2 (Step.cancelStep 0 cf2 cfC (by decide))

theorem reach_cfR1 : Reachable cfR1 :=
  Reachable.step cfC cfR1 reach_cfC (Step.claimRefundStep 5 cfC cfR1 50 (by decide))

/-! ## The claims -/

/-- C1: Conservation of invested funds.  At every reachable state,
`campaign.total_raised` equals the sum of `amount_invested` over that
campaign's investor records; every successful `invest` adds the invested
amount both to the caller's record and to the campaign total; and
`finalize_campaign`, `cancel_campaign`, `claim_refund` and `claim_tokens`
change neither `total_raised` nor any record's `amount_invested`. -/
theorem invested_funds_conservation (s : CfState) (hs : Reachable s) :
    s.campaign.total_raised = recordsSum s.records ∧
    (∀ s2 investor amount (now : Int) s2', invest s2 investor amount now = .ok s2' →
      s2'.campaign.total_raised = s2.campaign.total_raised + amount ∧
      (recOf s2' investor).amount_invested = (recOf s2 investor).amount_invested + amount) ∧
    (∀ s2 caller (now : Int) s2' ps cs, finalize_campaign s2 caller now = .ok (s2', ps, cs) →
      s2'.campaign.total_raised = s2.campaign.total_raised ∧
      ∀ i, recOf s2' i = recOf s2 i) ∧
    (∀ s2 caller s2', cancel_campaign s2 caller = .ok s2' →
      s2'.campaign.total_raised = s2.campaign.total_raised ∧
      ∀ i, recOf s2' i = recOf s2 i) ∧
    (∀ s2 investor s2' amt, claim_refund s2 investor = .ok (s2', amt) →
      s2'.campaign.total_raised = s2.campaign.total_raised ∧
      ∀ i, (recOf s2' i).amount_invested = (recOf s2 i).amount_invested) ∧
    (∀ s2 investor s2' amt, claim_tokens s2 investor = .ok (s2', amt) →
      s2'.campaign.total_raised = s2.campaign.total_raised ∧
      ∀ i, (recOf s2' i).amount_invested = (recOf s2 i).amount_invested) := by
  refine ⟨(reachable_cfInv s hs).conservation, ?_, ?_, ?_, ?_, ?_⟩
  · intro s2 investor amount now s2' h
    obtain ⟨hActive, hDl, hPos, hMin, hpne, hle1, hle2, hLe, hb1, hb2, hb3, hb4,
      hst, hcr, hpid, hfg, hbps, hfd, htp, htt, htr, hts, hrec, hesc⟩ :=
      invest_ok_spec s2 investor amount now s2' h
    refine ⟨htr, ?_⟩
    have hlook : recOf s2' investor =
        { investor := investor,
          amount_invested := (recOf s2 investor).amount_invested + amount,
          tokens_purchased :=
            (recOf s2 investor).tokens_purchased + amount / s2.campaign.token_price,
          invested_at := now, refunded := false, tokens_claimed := false } := by
      rw [recOf_eq, hrec, alookup_upsert_self]
      rfl
    rw [hlook]
  · intro s2 caller now s2' ps cs h
    obtain ⟨hCreator, hActive, hFund, hSplit, hPs, hCs, hs'⟩ :=
      finalize_campaign_ok_spec s2 caller now s2' ps cs h
    subst hs'
    exact ⟨rfl, fun i => rfl⟩
  · intro s2 caller s2' h
    obtain ⟨hActive, hCreator, hs'⟩ := cancel_campaign_ok_spec s2 caller s2' h
    subst hs'
    exact ⟨rfl, fun i => rfl⟩
  · intro s2 investor s2' amt h
    obtain ⟨hLookup, hCancelled, hNotRef, hPosAmt, hAmt, hEsc, hs'⟩ :=
      claim_refund_ok_spec s2 investor s2' amt h
    subst hs'
    refine ⟨rfl, ?_⟩
    intro i
    by_cases hi : i = investor
    · subst hi
      have hlook : recOf
          { s2 with
            records := upsert s2.records i { recOf s2 i with refunded := true },
            escrow := s2.escrow - amt } i = { recOf s2 i with refunded := true } := by
        rw [recOf_eq]
        show (alookup (upsert s2.records i { recOf s2 i with refunded := true }) i).getD
          emptyInvestorRecord = _
        rw [alookup_upsert_self]
        rfl
      rw [hlook]
    · have hlook : recOf
          { s2 with
            records := upsert s2.records investor { recOf s2 investor with refunded := true },
            escrow := s2.escrow - amt } i = recOf s2 i := by
        rw [recOf_eq]
        show (alookup (upsert s2.records investor _) i).getD emptyInvestorRecord = _
        rw [alookup_upsert_ne _ _ _ _ hi]
        rfl
      rw [hlook]
  · intro s2 investor s2' amt h
    obtain ⟨hLookup, hFunded, hNotCl, hPosTok, hAmt, hs'⟩ :=
      claim_tokens_ok_spec s2 investor s2' amt h
    subst hs'
    refine ⟨rfl, ?_⟩
    intro i
    by_cases hi : i = investor
    · subst hi
      have hlook : recOf
          { s2 with
            records := upsert s2.records i { recOf s2 i with tokens_claimed := true } } i =
          { recOf s2 i with tokens_claimed := true } := by
        rw [recOf_eq]
        show (alookup (upsert s2.records i { recOf s2 i with tokens_claimed := true }) i).getD
          emptyInvestorRecord = _
        rw [alookup_upsert_self]
        rfl
      rw [hlook]
    · have hlook : recOf
          { s2 with
            records := upsert s2.records investor
              { recOf s2 investor with tokens_claimed := true } } i = recOf s2 i := by
        rw [recOf_eq]
        show (alookup (upsert s2.records investor _) i).getD emptyInvestorRecord = _
        rw [alookup_upsert_ne _ _ _ _ hi]
        rfl
      rw [hlook]

/-- Witness for C1 at the concrete reachable state `cf2` (110 raised = 50 + 60). -/
theorem invested_funds_conservation_witness :
    cf2.campaign.total_raised = recordsSum cf2.records ∧
    cf2.campaign.total_raised = 110 :=
  ⟨(invested_funds_conservation cf2 reach_cf2).1, by decide⟩

/-- C2: Exact settlement split.  For any `u64` `total_raised` and any
`platform_equity_bps ≤ 5000`, the settlement computation of
`finalize_campaign` succeeds with
`platform_share = total_raised * platform_equity_bps / 10000` (the floor) and
`creator_share = total_raised - platform_share`, and the two shares sum back
to `total_raised` exactly: the checked subtraction never fails and no value
is lost to rounding. -/
theorem settlement_split_exact (total_raised platform_equity_bps : Nat)
    (hbps : platform_equity_bps ≤ 5000) (htr : total_raised < U64) :
    settlementSplit total_raised platform_equity_bps =
      some (total_raised * platform_equity_bps / 10000,
            total_raised - total_raised * platform_equity_bps / 10000) ∧
    total_raised * platform_equity_bps / 10000 +
      (total_raised - total_raised * platform_equity_bps / 10000) = total_raised := by
  have hq : total_raised * platform_equity_bps / 10000 ≤ total_raised := by
    calc total_raised * platform_equity_bps / 10000
        ≤ total_raised * 10000 / 10000 :=
          Nat.div_le_div_right (Nat.mul_le_mul_left _ (le_trans hbps (by norm_num)))
      _ = total_raised := Nat.mul_div_cancel _ (by norm_num)
  have hmul : total_raised * platform_equity_bps < U128 := by
    have h1 : platform_equity_bps < U64 :=
      lt_of_le_of_lt hbps (by norm_num [U64])
    have h2 : total_raised * platform_equity_bps < U64 * U64 :=
      Nat.mul_lt_mul'' htr h1
    have h3 : U64 * U64 = U128 := by
      unfold U64 U128
      rw [← pow_add]
    exact h3 ▸ h2
  have hcast : u64Cast (total_raised * platform_equity_bps / 10000) =
      total_raised * platform_equity_bps / 10000 := by
    unfold u64Cast
    exact Nat.mod_eq_of_lt (lt_of_le_of_lt hq htr)
  constructor
  · unfold settlementSplit checkedMul128 checkedDiv checkedSub
    rw [if_pos hmul]
    simp only [if_neg (by norm_num : ¬ (10000 : Nat) = 0)]
    rw [hcast, if_pos hq]
  · omega

/-- Witness for C2 at the spec's scenario: 1100 raised at 1000 bps splits
into 110 + 990 = 1100. -/
theorem settlement_split_exact_witness :
    settlementSplit 1100 1000 = some (110, 990) ∧ (110 : Nat) + 990 = 1100 := by
  have h := settlement_split_exact 1100 1000 (by norm_num) (by norm_num [U64])
  simpa using h

/-- C3: Platform-token reservation.  In every reachable state,
`tokens_sold` never exceeds
`total_tokens - total_tokens * platform_equity_bps / 10000` — the bound
`invest` re-enforces each call against the recomputed platform reservation
is an invariant of every operation. -/
theorem platform_token_reservation (s : CfState) (hs : Reachable s) :
    s.campaign.tokens_sold ≤
      s.campaign.total_tokens -
        s.campaign.total_tokens * s.campaign.platform_equity_bps / 10000 := by
  have hinv := reachable_cfInv s hs
  have hres := hinv.reservation
  obtain ⟨heq, hle⟩ := platTok_eq_of_le s.campaign
    (le_trans hinv.bps_le (by norm_num)) hinv.total_tokens_lt
  rw [heq] at hres hle
  omega

/-- Witness for C3 at the concrete reachable state `cf2`
(11 tokens sold ≤ 100 - 10). -/
theorem platform_token_reservation_witness :
    cf2.campaign.tokens_sold ≤
      cf2.campaign.total_tokens -
        cf2.campaign.total_tokens * cf2.campaign.platform_equity_bps / 10000 :=
  platform_token_reservation cf2 reach_cf2

/-- C4: Campaign status state machine.  `invest`, `claim_refund` and
`claim_tokens` never change the status; `finalize_campaign` moves
`Active → Funded` and `cancel_campaign` moves `Active → Cancelled`, both only
from `Active`; and no successful instruction changes the status of a
campaign that is not `Active` — `Funded` and `Cancelled` are terminal. -/
theorem campaign_status_state_machine :
    (∀ s investor amount (now : Int) s', invest s investor amount now = .ok s' →
      s.campaign.status = CampaignStatus.Active ∧
      s'.campaign.status = CampaignStatus.Active) ∧
    (∀ s caller (now : Int) s' ps cs, finalize_campaign s caller now = .ok (s', ps, cs) →
      s.campaign.status = CampaignStatus.Active ∧
      s'.campaign.status = CampaignStatus.Funded) ∧
    (∀ s caller s', cancel_campaign s caller = .ok s' →
      s.campaign.status = CampaignStatus.Active ∧
      s'.campaign.status = CampaignStatus.Cancelled) ∧
    (∀ s investor s' amt, claim_refund s investor = .ok (s', amt) →
      s'.campaign.status = s.campaign.status) ∧
    (∀ s investor s' amt, claim_tokens s investor = .ok (s', amt) →
      s'.campaign.status = s.campaign.status) ∧
    (∀ s s', Step s s' → s.campaign.status ≠ CampaignStatus.Active →
      s'.campaign.status = s.campaign.status) := by
  have hinvest : ∀ s investor amount (now : Int) s', invest s investor amount now = .ok s' →
      s.campaign.status = CampaignStatus.Active ∧
      s'.campaign.status = CampaignStatus.Active := by
    intro s investor amount now s' h
    obtain ⟨hActive, _, _, _, _, _, _, _, _, _, _, _, hst, _⟩ :=
      invest_ok_spec s investor amount now s' h
    exact ⟨hActive, hst.trans hActive⟩
  have hfinal : ∀ s caller (now : Int) s' ps cs,
      finalize_campaign s caller now = .ok (s', ps, cs) →
      s.campaign.status = CampaignStatus.Active ∧
      s'.campaign.status = CampaignStatus.Funded := by
    intro s caller now s' ps cs h
    obtain ⟨_, hActive, _, _, _, _, hs'⟩ := finalize_campaign_ok_spec s caller now s' ps cs h
    subst hs'
    exact ⟨hActive, rfl⟩
  have hcancel : ∀ s caller s', cancel_campaign s caller = .ok s' →
      s.campaign.status = CampaignStatus.Active ∧
      s'.campaign.status = CampaignStatus.Cancelled := by
    intro s caller s' h
    obtain ⟨hActive, _, hs'⟩ := cancel_campaign_ok_spec s caller s' h
    subst hs'
    exact ⟨hActive, rfl⟩
  have hrefund : ∀ s investor s' amt, claim_refund s investor = .ok (s', amt) →
      s'.campaign.status = s.campaign.status := by
    intro s investor s' amt h
    obtain ⟨_, _, _, _, _, _, hs'⟩ := claim_refund_ok_spec s investor s' amt h
    subst hs'
    rfl
  have htokens : ∀ s investor s' amt, claim_tokens s investor = .ok (s', amt) →
      s'.campaign.status = s.campaign.status := by
    intro s investor s' amt h
    obtain ⟨_, _, _, _, _, hs'⟩ := claim_tokens_ok_spec s investor s' amt h
    subst hs'
    rfl
  refine ⟨hinvest, hfinal, hcancel, hrefund, htokens, ?_⟩
  intro s s' hstep hnact
  cases hstep with
  | investStep investor amount now s0 s1 h => exact absurd (hinvest _ _ _ _ _ h).1 hnact
  | finalizeStep caller now s0 s1 ps cs h => exact absurd (hfinal _ _ _ _ _ _ h).1 hnact
  | cancelStep caller s0 s1 h => exact absurd (hcancel _ _ _ h).1 hnact
  | claimRefundStep investor s0 s1 amt h => exact hrefund _ _ _ _ h
  | claimTokensStep investor s0 s1 amt h => exact htokens _ _ _ _ h

/-- C5: At-most-once payouts.  After a successful `claim_refund` the same
investor's next `claim_refund` fails with `AlreadyRefunded`, and after a
successful `claim_tokens` the next `claim_tokens` fails with
`TokensAlreadyClaimed`; an erroring instruction is a failed transaction that
transfers no currency, mints no tokens and mutates no record. -/
theorem payouts_at_most_once :
    (∀ s investor s' amt, claim_refund s investor = .ok (s', amt) →
      claim_refund s' investor = .error CrowdfundingError.AlreadyRefunded) ∧
    (∀ s investor s' amt, claim_tokens s investor = .ok (s', amt) →
      claim_tokens s' investor = .error CrowdfundingError.TokensAlreadyClaimed) := by
  constructor
  · intro s investor s' amt h
    obtain ⟨hLookup, hCancelled, hNotRef, hPosAmt, hAmt, hEsc, hs'⟩ :=
      claim_refund_ok_spec s investor s' amt h
    subst hs'
    simp [claim_refund, alookup_upsert_self, hCancelled]
  · intro s investor s' amt h
    obtain ⟨hLookup, hFunded, hNotCl, hPosTok, hAmt, hs'⟩ :=
      claim_tokens_ok_spec s investor s' amt h
    subst hs'
    simp [claim_tokens, alookup_upsert_self, hFunded]

/-- C7: Investment token computation.  A successful `invest` ran under the
guards `status == Active`, `now < deadline`, `amount > 0`,
`amount ≥ token_price`; it credits the investor exactly
`amount / token_price` tokens (integer floor) while the full `amount` —
integer-division remainder included — moves into escrow and is not
refunded. -/
theorem invest_token_computation (s : CfState) (investor amount : Nat) (now : Int)
    (s' : CfState) (h : invest s investor amount now = .ok s') :
    s.campaign.status = CampaignStatus.Active ∧
    now < s.campaign.funding_deadline ∧
    0 < amount ∧
    s.campaign.token_price ≤ amount ∧
    (recOf s' investor).tokens_purchased =
      (recOf s investor).tokens_purchased + amount / s.campaign.token_price ∧
    (recOf s' investor).amount_invested = (recOf s investor).amount_invested + amount ∧
    s'.escrow = s.escrow + amount ∧
    amount / s.campaign.token_price * s.campaign.token_price ≤ amount := by
  obtain ⟨hActive, hDl, hPos, hMin, hpne, hle1, hle2, hLe, hb1, hb2, hb3, hb4,
    hst, hcr, hpid, hfg, hbps, hfd, htp, htt, htr, hts, hrec, hesc⟩ :=
    invest_ok_spec s investor amount now s' h
  have hlook : recOf s' investor =
      { investor := investor,
        amount_invested := (recOf s investor).amount_invested + amount,
        tokens_purchased :=
          (recOf s investor).tokens_purchased + amount / s.campaign.token_price,
        invested_at := now, refunded := false, tokens_claimed := false } := by
    rw [recOf_eq, hrec, alookup_upsert_self]
    rfl
  refine ⟨hActive, hDl, hPos, hMin, ?_, ?_, hesc, Nat.div_mul_le_self amount _⟩
  · rw [hlook]
  · rw [hlook]

/-- Witness for C7 on the concrete first investment: 50 lamports at token
price 10 yields exactly 5 tokens and the full 50 lamports reach escrow. -/
theorem invest_token_computation_witness :
    (recOf cf1 5).tokens_purchased =
      (recOf cf0 5).tokens_purchased + 50 / cf0.campaign.token_price ∧
    cf1.escrow = cf0.escrow + 50 := by
  have h := invest_token_computation cf0 5 50 1 cf1 (by decide)
  exact ⟨h.2.2.2.2.1, h.2.2.2.2.2.2.1⟩

/-- C6: The `refunded` and `tokens_claimed` flags are each settable exactly
once and are mutually exclusive in effect.  In every reachable state no
record has both flags set, and no successful instruction — `invest`'s
unconditional `refunded = false; tokens_claimed = false` writes included —
ever resets a set flag, because `invest` requires `Active` status while a set
flag forces the terminal `Cancelled` (resp. `Funded`) status. -/
theorem refund_claim_flags_set_once (s : CfState) (hs : Reachable s) :
    (∀ i, ¬((recOf s i).refunded = true ∧ (recOf s i).tokens_claimed = true)) ∧
    (∀ s', Step s s' → ∀ i,
      ((recOf s i).refunded = true → (recOf s' i).refunded = true) ∧
      ((recOf s i).tokens_claimed = true → (recOf s' i).tokens_claimed = true)) := by
  have hinv := reachable_cfInv s hs
  constructor
  · rintro i ⟨h1, h2⟩
    cases hl : alookup s.records i with
    | none =>
      rw [recOf_eq, hl] at h1
      simp [emptyInvestorRecord] at h1
    | some r =>
      rw [recOf_eq, hl] at h1 h2
      simp only [Option.getD_some] at h1 h2
      have hflags := hinv.flags (i, r) (alookup_mem s.records i r hl)
      have hc := hflags.1 h1
      have hf := hflags.2 h2
      rw [hc] at hf
      exact absurd hf (by decide)
  · intro s' hstep i
    cases hstep with
    | investStep investor amount now s0 s1 h =>
      obtain ⟨hActive, _, _, _, _, _, _, _, _, _, _, _, _⟩ :=
        invest_ok_spec s investor amount now s' h
      constructor
      · intro hx
        exfalso
        cases hl : alookup s.records i with
        | none =>
          rw [recOf_eq, hl] at hx
          simp [emptyInvestorRecord] at hx
        | some r =>
          rw [recOf_eq, hl] at hx
          simp only [Option.getD_some] at hx
          have hc := (hinv.flags (i, r) (alookup_mem s.records i r hl)).1 hx
          rw [hActive] at hc
          exact absurd hc (by decide)
      · intro hx
        exfalso
        cases hl : alookup s.records i with
        | none =>
          rw [recOf_eq, hl] at hx
          simp [emptyInvestorRecord] at hx
        | some r =>
          rw [recOf_eq, hl] at hx
          simp only [Option.getD_some] at hx
          have hc := (hinv.flags (i, r) (alookup_mem s.records i r hl)).2 hx
          rw [hActive] at hc
          exact absurd hc (by decide)
    | finalizeStep caller now s0 s1 ps cs h =>
      obtain ⟨_, _, _, _, _, _, hs'⟩ := finalize_campaign_ok_spec s caller now s' ps cs h
      subst hs'
      exact ⟨fun hx => hx, fun hx => hx⟩
    | cancelStep caller s0 s1 h =>
      obtain ⟨_, _, hs'⟩ := cancel_campaign_ok_spec s caller s' h
      subst hs'
      exact ⟨fun hx => hx, fun hx => hx⟩
    | claimRefundStep investor s0 s1 amt h =>
      obtain ⟨hLookup, hCancelled, hNotRef, hPosAmt, hAmt, hEsc, hs'⟩ :=
        claim_refund_ok_spec s investor s' amt h
      subst hs'
      by_cases hi : i = investor
      · subst hi
        have hlook : recOf
            { s with
              records := upsert s.records i { recOf s i with refunded := true },
              escrow := s.escrow - amt } i = { recOf s i with refunded := true } := by
          rw [recOf_eq]
          show (alookup (upsert s.records i { recOf s i with refunded := true }) i).getD
            emptyInvestorRecord = _
          rw [alookup_upsert_self]
          rfl
        constructor
        · intro hx
          rw [hlook]
        · intro hx
          rw [hlook]
          exact hx
      · have hlook : recOf
            { s with
              records := upsert s.records investor
                { recOf s investor with refunded := true },
              escrow := s.escrow - amt } i = recOf s i := by
          rw [recOf_eq]
          show (alookup (upsert s.records investor _) i).getD emptyInvestorRecord = _
          rw [alookup_upsert_ne _ _ _ _ hi]
          rfl
        constructor
        · intro hx
          rw [hlook]
          exact hx
        · intro hx
          rw [hlook]
          exact hx
    | claimTokensStep investor s0 s1 amt h =>
      obtain ⟨hLookup, hFunded, hNotCl, hPosTok, hAmt, hs'⟩ :=
        claim_tokens_ok_spec s investor s' amt h
      subst hs'
      by_cases hi : i = investor
      · subst hi
        have hlook : recOf
            { s with
              records := upsert s.records i
                { recOf s i with tokens_claimed := true } } i =
            { recOf s i with tokens_claimed := true } := by
          rw [recOf_eq]
          show (alookup (upsert s.records i { recOf s i with tokens_claimed := true }) i).getD
            emptyInvestorRecord = _
          rw [alookup_upsert_self]
          rfl
        constructor
        · intro hx
          rw [hlook]
          exact hx
        · intro hx
          rw [hlook]
      · have hlook : recOf
            { s with
              records := upsert s.records investor
                { recOf s investor with tokens_claimed := true } } i = recOf s i := by
          rw [recOf_eq]
          show (alookup (upsert s.records investor _) i).getD emptyInvestorRecord = _
          rw [alookup_upsert_ne _ _ _ _ hi]
          rfl
        constructor
        · intro hx
          rw [hlook]
          exact hx
        · intro hx
          rw [hlook]
          exact hx

/-- Witness for C6 on the concrete trace: investor 5's refunded flag, set in
`cfR1`, survives investor 6's subsequent refund step to `cfR2`; and in `cfR1`
no record has both flags set. -/
theorem refund_claim_flags_set_once_witness :
    (recOf cfR2 5).refunded = true ∧
    ((recOf cfR1 5).refunded = true ∧ (recOf cfR1 5).tokens_claimed = true → False) := by
  have h := refund_claim_flags_set_once cfR1 reach_cfR1
  exact ⟨(h.2 cfR2 (Step.claimRefundStep 6 cfR1 cfR2 60 (by decide)) 5).1 (by decide),
    h.1 5⟩
end Crowdfunding

/-! ## Characterizations of the successful dividend instructions -/

namespace PropertyDividends

/-- What a successful `initialize_pool` enforced and produced. -/
theorem initialize_pool_ok_spec (authority : Nat) (property_id : String)
    (distribution_frequency_days : Nat) (s : DivState)
    (h : initialize_pool authority property_id distribution_frequency_days = .ok s) :
    property_id.length ≤ 64 ∧ 0 < distribution_frequency_days ∧
    s = { pool :=
            { authority := authority, property_id := property_id,
              total_distributed := 0, current_epoch := 0,
              distribution_frequency_days := distribution_frequency_days,
              last_distribution_time := 0, total_deposited_current_epoch := 0 },
          distributions := [], claims := [], vault := 0 } := by
  unfold initialize_pool at h
  repeat' split at h
  any_goals exact Except.noConfusion h
  rename_i hLen hFreq
  injection h with h
  subst h
  exact ⟨hLen, hFreq, rfl⟩

/-- What a successful `deposit_dividend` enforced and produced. -/
theorem deposit_dividend_ok_spec (s : DivState) (caller amount : Nat) (s' : DivState)
    (h : deposit_dividend s caller amount = .ok s') :
    caller = s.pool.authority ∧ 0 < amount ∧
    s.pool.total_deposited_current_epoch + amount < U64 ∧
    s' = { s with
           pool := { s.pool with
             total_deposited_current_epoch :=
               s.pool.total_deposited_current_epoch + amount },
           vault := s.vault + amount } := by
  unfold deposit_dividend at h
  repeat' split at h
  any_goals exact Except.noConfusion h
  rename_i hAuth hPos x1 dep hAdd
  obtain ⟨hb, hdep⟩ := checkedAdd64_some hAdd
  subst hdep
  injection h with h
  subst h
  exact ⟨hAuth, hPos, hb, rfl⟩

/-- What a successful `start_distribution` enforced and produced: the epoch
PDA was fresh, deposits and supply were positive, the record snapshots the
epoch, the accumulated deposit, the live supply and the floored per-token
amount, and the pool resets its accumulator, bumps the epoch and adds the
distributed amount to its all-time counter. -/
theorem start_distribution_ok_spec (s : DivState) (caller supply : Nat) (now : Int)
    (s' : DivState) (d : DistributionRecord)
    (h : start_distribution s caller supply now = .ok (s', d)) :
    caller = s.pool.authority ∧
    alookup s.distributions s.pool.current_epoch = none ∧
    0 < s.pool.total_deposited_current_epoch ∧
    0 < supply ∧
    s.pool.total_distributed + s.pool.total_deposited_current_epoch < U64 ∧
    s.pool.current_epoch + 1 < U64 ∧
    d = { epoch := s.pool.current_epoch,
          total_amount := s.pool.total_deposited_current_epoch,
          total_token_supply := supply,
          amount_per_token := s.pool.total_deposited_current_epoch / supply,
          distributed_at := now, total_claimed := 0 } ∧
    s' = { s with
           pool := { s.pool with
             total_distributed :=
               s.pool.total_distributed + s.pool.total_deposited_current_epoch,
             last_distribution_time := now,
             current_epoch := s.pool.current_epoch + 1,
             total_deposited_current_epoch := 0 },
           distributions := upsert s.distributions s.pool.current_epoch
             { epoch := s.pool.current_epoch,
               total_amount := s.pool.total_deposited_current_epoch,
               total_token_supply := supply,
               amount_per_token := s.pool.total_deposited_current_epoch / supply,
               distributed_at := now, total_claimed := 0 } } := by
  unfold start_distribution at h
  repeat' split at h
  any_goals exact Except.noConfusion h
  rename_i hAuth x1 hLookup hDep hSupply x2 apt hDiv x3 td hAdd1 x4 ce hAdd2
  obtain ⟨-, hapt⟩ := checkedDiv_some hDiv
  obtain ⟨hb1, htd⟩ := checkedAdd64_some hAdd1
  obtain ⟨hb2, hce⟩ := checkedAdd64_some hAdd2
  subst hapt
  subst htd
  subst hce
  injection h with h
  injection h with h1 h2
  subst h1
  subst h2
  exact ⟨hAuth, hLookup, hDep, hSupply, hb1, hb2, rfl, rfl⟩

/-- What a successful `claim_dividend` enforced and produced: the epoch's
distribution record exists, no claim record existed for `(epoch, user)`, the
claimant's live balance is positive, the payout is exactly
`balance * amount_per_token` and nonzero, and the new claim record is
finalized with `claimed = true` while distributions stay untouched. -/
theorem claim_dividend_ok_spec (s : DivState) (user epoch balance : Nat) (now : Int)
    (s' : DivState) (amt : Nat)
    (h : claim_dividend s user epoch balance now = .ok (s', amt)) :
    alookup s.distributions epoch = some (distOf s epoch) ∧
    alookup s.claims (epoch, user) = none ∧
    0 < balance ∧
    balance * (distOf s epoch).amount_per_token < U64 ∧
    amt = balance * (distOf s epoch).amount_per_token ∧
    0 < amt ∧
    amt ≤ s.vault ∧
    s' = { s with
           claims := upsert s.claims (epoch, user)
             { user := user, epoch := epoch, amount_claimed := amt,
               claimed_at := now, claimed := true },
           vault := s.vault - amt } := by
  unfold claim_dividend at h
  repeat' split at h
  any_goals exact Except.noConfusion h
  rename_i x1 dist hLookup x2 hClaims hBal x3 da hMul hPos hVault
  have hdist : distOf s epoch = dist := by
    unfold distOf
    rw [hLookup]
    rfl
  obtain ⟨hb, hda⟩ := checkedMul64_some hMul
  subst hda
  injection h with h
  injection h with h1 h2
  subst h1
  subst h2
  rw [hdist]
  exact ⟨hLookup, hClaims, hBal, hb, rfl, hPos, hVault, rfl⟩

/-- What a successful `update_authority` enforced and produced. -/
theorem update_authority_ok_spec (s : DivState) (caller new_authority : Nat)
    (s' : DivState) (h : update_authority s caller new_authority = .ok s') :
    caller = s.pool.authority ∧
    s' = { s with pool := { s.pool with authority := new_authority } } := by
  unfold update_authority at h
  repeat' split at h
  any_goals exact Except.noConfusion h
  rename_i hAuth
  injection h with h
  subst h
  exact ⟨hAuth, rfl⟩

end PropertyDividends

/-! ## Concrete reachability of the dividend trace -/

namespace PropertyDividends

theorem reach_dv0 : DivReachable dv0 :=
  DivReachable.created 1 "villa-1" 30 dv0 (by decide)

theorem reach_dv1 : DivReachable dv1 :=
  DivReachable.step dv0 dv1 reach_dv0 (DivStep.depositStep 1 1000 dv0 dv1 (by decide))

theorem reach_dv2 : DivReachable dv2 :=
  DivReachable.step dv1 dv2 reach_dv1 (DivStep.startStep 1 7 10 dv1 dv2 dvD0 (by decide))

/-- C8: `start_distribution` postconditions.  Under its preconditions
(positive accumulated deposit, positive circulating supply) it creates a
`DistributionRecord` snapshotting the current epoch, the accumulated deposit
as `total_amount`, the live supply, and the floored
`amount_per_token = total_amount / total_token_supply`; and it zeroes
`total_deposited_current_epoch`, advances `current_epoch` by exactly one and
adds `total_amount` onto `total_distributed`. -/
theorem start_distribution_postconditions (s : DivState) (caller supply : Nat)
    (now : Int) (s' : DivState) (d : DistributionRecord)
    (h : start_distribution s caller supply now = .ok (s', d)) :
    0 < s.pool.total_deposited_current_epoch ∧
    0 < supply ∧
    d.epoch = s.pool.current_epoch ∧
    d.total_amount = s.pool.total_deposited_current_epoch ∧
    d.total_token_supply = supply ∧
    d.amount_per_token = s.pool.total_deposited_current_epoch / supply ∧
    s'.pool.total_deposited_current_epoch = 0 ∧
    s'.pool.current_epoch = s.pool.current_epoch + 1 ∧
    s'.pool.total_distributed = s.pool.total_distributed + d.total_amount := by
  obtain ⟨hAuth, hLookup, hDep, hSupply, hb1, hb2, hd, hs'⟩ :=
    start_distribution_ok_spec s caller supply now s' d h
  subst hd
  subst hs'
  exact ⟨hDep, hSupply, rfl, rfl, rfl, rfl, rfl, rfl, rfl⟩

/-- Witness for C8 on the concrete trace: epoch 0 opens on a 1000-lamport
deposit against supply 7, floors `amount_per_token` to 142, and bumps the
epoch counter to 1. -/
theorem start_distribution_postconditions_witness :
    dvD0.epoch = dv1.pool.current_epoch ∧
    dvD0.total_amount = dv1.pool.total_deposited_current_epoch ∧
    dvD0.amount_per_token = dv1.pool.total_deposited_current_epoch / 7 ∧
    dv2.pool.current_epoch = dv1.pool.current_epoch + 1 := by
  have h := start_distribution_postconditions dv1 1 7 10 dv2 dvD0 (by decide)
  exact ⟨h.2.2.1, h.2.2.2.1, h.2.2.2.2.2.1, h.2.2.2.2.2.2.2.1⟩

/-- C9: `claim_dividend` payout.  A successful claim requires a live positive
balance and no existing claim record for `(distribution, user)`, and pays
exactly `balance * amount_per_token`, which must be nonzero; concretely, for
`total_amount = 1000` and `total_token_supply = 7` the distribution floors
`amount_per_token` to 142, a holder of 3 tokens is paid exactly 426, and the
same user's second claim for the same epoch fails. -/
theorem claim_dividend_payout :
    (∀ s user epoch balance (now : Int) s' amt,
      claim_dividend s user epoch balance now = .ok (s', amt) →
      (alookup s.distributions epoch).isSome = true ∧
      alookup s.claims (epoch, user) = none ∧
      0 < balance ∧
      amt = balance * (distOf s epoch).amount_per_token ∧
      0 < amt) ∧
    dvD0.total_amount = 1000 ∧
    dvD0.total_token_supply = 7 ∧
    dvD0.amount_per_token = 142 ∧
    claim_dividend dv2 7 0 3 20 = .ok (dv3, 426) ∧
    claim_dividend dv3 7 0 3 21 = .error DividendError.AccountAlreadyInitialized := by
  refine ⟨?_, by decide, by decide, by decide, by decide, by decide⟩
  intro s user epoch balance now s' amt h
  obtain ⟨hLookup, hClaims, hBal, hb, hAmt, hPos, hVault, hs'⟩ :=
    claim_dividend_ok_spec s user epoch balance now s' amt h
  refine ⟨?_, hClaims, hBal, hAmt, hPos⟩
  rw [hLookup]
  rfl

/-- C10 (implicit): in every reachable pool state, every stored
`DistributionRecord` has `total_claimed = 0` — `start_distribution`
initializes it to zero and no instruction (in particular not
`claim_dividend`, which never writes the distribution record) ever changes
it, so nothing bounds cumulative claims of an epoch by that epoch's
`total_amount`. -/
theorem distribution_total_claimed_always_zero (s : DivState) (hs : DivReachable s) :
    ∀ epoch d, alookup s.distributions epoch = some d → d.total_claimed = 0 := by
  induction hs with
  | created authority property_id freq s h =>
    obtain ⟨-, -, hs0⟩ := initialize_pool_ok_spec authority property_id freq s h
    subst hs0
    intro epoch d hd
    simp [alookup] at hd
  | step s s' hreach hstep ih =>
    cases hstep with
    | depositStep caller amount s0 s1 h =>
      obtain ⟨-, -, -, hs'⟩ := deposit_dividend_ok_spec s caller amount s' h
      subst hs'
      exact ih
    | startStep caller supply now s0 s1 d0 h =>
      obtain ⟨-, hLookup, -, -, -, -, hd0, hs'⟩ :=
        start_distribution_ok_spec s caller supply now s' d0 h
      subst hs'
      intro epoch d hd
      have hd' : alookup (upsert s.distributions s.pool.current_epoch
          { epoch := s.pool.current_epoch,
            total_amount := s.pool.total_deposited_current_epoch,
            total_token_supply := supply,
            amount_per_token := s.pool.total_deposited_current_epoch / supply,
            distributed_at := now, total_claimed := 0 }) epoch = some d := hd
      by_cases he : epoch = s.pool.current_epoch
      · subst he
        rw [alookup_upsert_self] at hd'
        injection hd' with hd'
        rw [← hd']
      · rw [alookup_upsert_ne _ _ _ _ he] at hd'
        exact ih epoch d hd'
    | claimStep user epoch0 balance now s0 s1 amt h =>
      obtain ⟨-, -, -, -, -, -, -, hs'⟩ :=
        claim_dividend_ok_spec s user epoch0 balance now s' amt h
      subst hs'
      exact ih
    | updateAuthorityStep caller new_authority s0 s1 h =>
      obtain ⟨-, hs'⟩ := update_authority_ok_spec s caller new_authority s' h
      subst hs'
      exact ih

/-- Witness for C10 at the concrete epoch-0 distribution record. -/
theorem distribution_total_claimed_always_zero_witness :
    dvD0.total_claimed = 0 :=
  distribution_total_claimed_always_zero dv2 reach_dv2 0 dvD0 (by decide)

end PropertyDividends
